import Mathlib

/-!
Verification of the peer-set protocol-identity subsystem
(`node/network/protocol/src/peer_set.rs`): wire-protocol name derivation,
the name registry with reverse lookup, the admission-policy configurator,
and the per-peer-set storage container.

Machine integers (`u32`, `usize`) are modelled as `Nat` with explicit
wrap-around modulo 2 ^ 32 where the source performs `u32` arithmetic.
Strings are Lean `String`s; the `HashMap` of the registry is modelled as an
association list preserving insertion order, with first-match lookup
(keys are kept distinct by construction, so this coincides with the map).
The source's `panic!` on a name collision is modelled by returning `none`.
-/

/-- Protocol version (`u32` in the source). -/
abbrev ProtocolVersion := Nat

/-- One byte rendered by the hex crate: two lowercase hex digits, high nibble first. -/
def byteToHex (b : Nat) : List Char :=
  [Nat.digitChar (b / 16), Nat.digitChar (b % 16)]

/-- The character list underlying the lowercase-hex encoding of a byte string. -/
def hexChars (bytes : List Nat) : List Char :=
  bytes.flatMap byteToHex

/-- Lowercase hex encoding of a byte string without a 0x marker, as produced by the
hex crate's encode used by the source. -/
def hexEncode (bytes : List Nat) : String :=
  ⟨hexChars bytes⟩

/-- Fuel-indexed accumulation of decimal digits of a natural number, most
significant first.  Fuel at least the number itself is always sufficient. -/
def decChars : Nat → Nat → List Char
  | 0, _ => []
  | fuel + 1, n =>
    if n = 0 then [] else decChars fuel (n / 10) ++ [Nat.digitChar (n % 10)]

/-- Decimal rendering of a natural number, as Rust's formatter renders a `u32`. -/
def natDecimal (n : Nat) : String :=
  if n = 0 then "0" else ⟨decChars (n + 1) n⟩

/-- Legacy validation wire name, a historical fixed constant. -/
def LEGACY_VALIDATION_PROTOCOL_V1 : String := "/polkadot/validation/1"

/-- Legacy collation wire name, a historical fixed constant. -/
def LEGACY_COLLATION_PROTOCOL_V1 : String := "/polkadot/collation/1"

/-- The main protocol version, currently the same for validation and collation. -/
def MAIN_PROTOCOL_VERSION : ProtocolVersion := 1

/-- The protocol version of the legacy on-the-wire names, always 1. -/
def LEGACY_PROTOCOL_VERSION : ProtocolVersion := 1

/-- Max notification size, currently a constant. -/
def MAX_NOTIFICATION_SIZE : Nat := 100 * 1024

/-- The peer-sets (logical channels) used by the network. -/
inductive PeerSet where
  | Validation
  | Collation
deriving DecidableEq, Repr

/-- Whether a node is an authority or not. -/
inductive IsAuthority where
  | Yes
  | No
deriving DecidableEq, Repr

/-- Policy towards peers that are not explicitly reserved. -/
inductive NonReservedPeerMode where
  | Accept
  | Deny
deriving DecidableEq, Repr

/-- The slot configuration of one peer set (`sc_network::config::SetConfig`). -/
structure SetConfig where
  in_peers : Nat
  out_peers : Nat
  reserved_nodes : List String
  non_reserved_mode : NonReservedPeerMode
deriving DecidableEq, Repr

/-- A full peer-set registration record (`sc_network::config::NonDefaultSetConfig`). -/
structure NonDefaultSetConfig where
  notifications_protocol : String
  fallback_names : List String
  max_notification_size : Nat
  set_config : SetConfig
deriving DecidableEq, Repr

/-- The iteration order of the peer-set enumeration (`strum::EnumIter`):
declaration order. -/
def PeerSet.iterList : List PeerSet :=
  [PeerSet.Validation, PeerSet.Collation]

/-- The main protocol version for a peer set. -/
def PeerSet.get_main_version (_ : PeerSet) : ProtocolVersion :=
  MAIN_PROTOCOL_VERSION

/-- The max notification size for a peer set; the role argument is unused. -/
def PeerSet.get_max_notification_size (_ : PeerSet) (_ : IsAuthority) : Nat :=
  MAX_NOTIFICATION_SIZE

/-- The peer-set label for metrics reporting. -/
def PeerSet.get_label : PeerSet → String
  | PeerSet.Validation => "validation"
  | PeerSet.Collation => "collation"

/-- The protocol label for metrics reporting, covering only the enumerated
protocol versions. -/
def PeerSet.get_protocol_label (p : PeerSet) (version : ProtocolVersion) : Option String :=
  match p, version with
  | PeerSet.Validation, 1 => some "validation/1"
  | PeerSet.Collation, 1 => some "collation/1"
  | _, _ => none

/-- A collection storing one datum per peer set. -/
structure PerPeerSet (T : Type) where
  validation : T
  collation : T
deriving DecidableEq, Repr

/-- Reading the datum of one peer set (the `Index` impl). -/
def PerPeerSet.index {T : Type} (self : PerPeerSet T) : PeerSet → T
  | PeerSet.Validation => self.validation
  | PeerSet.Collation => self.collation

/-- Writing the datum of one peer set (functional form of the `IndexMut` impl). -/
def PerPeerSet.index_mut {T : Type} (self : PerPeerSet T) (i : PeerSet) (v : T) : PerPeerSet T :=
  match i with
  | PeerSet.Validation => { self with validation := v }
  | PeerSet.Collation => { self with collation := v }

/-- The on-the-wire name registry: genesis hash, optional fork id, and the
name-to-protocol mapping (association list in insertion order). -/
structure PeerSetProtocolNames where
  genesis_hash : List Nat
  fork_id : Option String
  protocols : List (String × PeerSet × ProtocolVersion)
deriving DecidableEq, Repr

/-- First-match key lookup in the association list, the model of `HashMap::get`
(keys are distinct on every constructed registry). -/
def lookupName (name : String) : List (String × PeerSet × ProtocolVersion) → Option (PeerSet × ProtocolVersion)
  | [] => none
  | (k, v) :: rest => if k = name then some v else lookupName name rest

/-- Insertion that fails (the source panics) when the key is already present. -/
def PeerSetProtocolNames.insert_protocol_or_panic
    (protocols : List (String × PeerSet × ProtocolVersion)) (name : String)
    (protocol : PeerSet) (version : ProtocolVersion) :
    Option (List (String × PeerSet × ProtocolVersion)) :=
  match lookupName name protocols with
  | some _ => none
  | none => some (protocols ++ [(name, protocol, version)])

/-- The generated protocol name, derived from the genesis hash and fork id. -/
def PeerSetProtocolNames.generate_name (genesis_hash : List Nat) (fork_id : Option String)
    (protocol : PeerSet) (version : ProtocolVersion) : String :=
  let pfx := match fork_id with
    | some f => "/" ++ hexEncode genesis_hash ++ "/" ++ f
    | none => "/" ++ hexEncode genesis_hash
  let short_name := match protocol with
    | PeerSet.Validation => "validation"
    | PeerSet.Collation => "collation"
  pfx ++ "/" ++ short_name ++ "/" ++ natDecimal version

/-- The legacy protocol name; only version 1 is supported. -/
def PeerSetProtocolNames.get_legacy_name : PeerSet → String
  | PeerSet.Validation => LEGACY_VALIDATION_PROTOCOL_V1
  | PeerSet.Collation => LEGACY_COLLATION_PROTOCOL_V1

/-- The fallback names: currently exactly the legacy name. -/
def PeerSetProtocolNames.get_fallback_names (protocol : PeerSet) : List String :=
  [PeerSetProtocolNames.get_legacy_name protocol]

/-- One iteration of the construction loop: register the main and the legacy
name of one peer set. -/
def PeerSetProtocolNames.newStep (genesis_hash : List Nat) (fork_id : Option String)
    (protocols : List (String × PeerSet × ProtocolVersion)) (protocol : PeerSet) :
    Option (List (String × PeerSet × ProtocolVersion)) := do
  let protocols ← PeerSetProtocolNames.insert_protocol_or_panic protocols
    (PeerSetProtocolNames.generate_name genesis_hash fork_id protocol MAIN_PROTOCOL_VERSION)
    protocol MAIN_PROTOCOL_VERSION
  PeerSetProtocolNames.insert_protocol_or_panic protocols
    (PeerSetProtocolNames.get_legacy_name protocol) protocol LEGACY_PROTOCOL_VERSION

/-- Registry construction from the genesis hash and fork id; `none` models the
source's fatal panic on a wire-name collision. -/
def PeerSetProtocolNames.new (genesis_hash : List Nat) (fork_id : Option String) :
    Option PeerSetProtocolNames :=
  (PeerSet.iterList.foldlM (PeerSetProtocolNames.newStep genesis_hash fork_id) []).map
    (fun protocols => { genesis_hash := genesis_hash, fork_id := fork_id, protocols := protocols })

/-- Reverse lookup of a protocol by its on-the-wire name. -/
def PeerSetProtocolNames.try_get_protocol (self : PeerSetProtocolNames) (name : String) :
    Option (PeerSet × ProtocolVersion) :=
  lookupName name self.protocols

/-- The protocol name for a specific version, regenerated from the stored inputs. -/
def PeerSetProtocolNames.get_name (self : PeerSetProtocolNames) (protocol : PeerSet)
    (version : ProtocolVersion) : String :=
  PeerSetProtocolNames.generate_name self.genesis_hash self.fork_id protocol version

/-- The main protocol name, used by the networking layer for connection tracking. -/
def PeerSetProtocolNames.get_main_name (self : PeerSetProtocolNames) (protocol : PeerSet) : String :=
  self.get_name protocol MAIN_PROTOCOL_VERSION

/-- Modelled from the spec: `MIN_GOSSIP_PEERS` is declared in the parent module
(`node/network/protocol/src/lib.rs`), which is not among the sources here; the
spec uses it only symbolically, so it is an explicit parameter
`min_gossip_peers` of this function.  The source's `usize`-to-`u32` cast and
the `u32` division and subtraction are modelled with explicit wrap-around
modulo 2 ^ 32.  Everything else is the peer-set admission configuration
`PeerSet::get_info`. -/
def PeerSet.get_info (min_gossip_peers : Nat) (self : PeerSet) (is_authority : IsAuthority)
    (peerset_protocol_names : PeerSetProtocolNames) : NonDefaultSetConfig :=
  let protocol := peerset_protocol_names.get_main_name self
  let fallback_names := PeerSetProtocolNames.get_fallback_names self
  let max_notification_size := self.get_max_notification_size is_authority
  match self with
  | PeerSet.Validation =>
    { notifications_protocol := protocol
      fallback_names := fallback_names
      max_notification_size := max_notification_size
      set_config :=
        { in_peers := (min_gossip_peers % 2 ^ 32 / 2 + (2 ^ 32 - 1)) % 2 ^ 32
          out_peers := (min_gossip_peers % 2 ^ 32 / 2 + (2 ^ 32 - 1)) % 2 ^ 32
          reserved_nodes := []
          non_reserved_mode := NonReservedPeerMode.Accept } }
  | PeerSet.Collation =>
    { notifications_protocol := protocol
      fallback_names := fallback_names
      max_notification_size := max_notification_size
      set_config :=
        { in_peers := if is_authority = IsAuthority.Yes then 100 else 0
          out_peers := 0
          reserved_nodes := []
          non_reserved_mode :=
            if is_authority = IsAuthority.Yes then NonReservedPeerMode.Accept
            else NonReservedPeerMode.Deny } }

/-- The genesis hash bytes of the source's test vectors. -/
def genesisTestHash : List Nat :=
  [122, 200, 116, 29, 232, 183, 20, 109, 138, 86, 23, 253, 70, 41, 20, 85, 127, 230, 60,
   38, 90, 127, 28, 16, 231, 218, 227, 40, 88, 238, 187, 128]

/-- The fork-id contribution to the generated name, as a character list. -/
def forkChars : Option String → List Char
  | none => []
  | some f => '/' :: f.data

/-- The channel-label contribution to the generated name, as a character list. -/
def labelChars : PeerSet → List Char
  | PeerSet.Validation => "validation".data
  | PeerSet.Collation => "collation".data

/-- The four wire names inserted during registry construction, in insertion order. -/
def constructionNames (g : List Nat) (f : Option String) : List String :=
  [PeerSetProtocolNames.generate_name g f PeerSet.Validation MAIN_PROTOCOL_VERSION,
   PeerSetProtocolNames.get_legacy_name PeerSet.Validation,
   PeerSetProtocolNames.generate_name g f PeerSet.Collation MAIN_PROTOCOL_VERSION,
   PeerSetProtocolNames.get_legacy_name PeerSet.Collation]

/-- The registry value that a successful construction produces. -/
def constructedRegistry (g : List Nat) (f : Option String) : PeerSetProtocolNames :=
  { genesis_hash := g
    fork_id := f
    protocols :=
      [(PeerSetProtocolNames.generate_name g f PeerSet.Validation MAIN_PROTOCOL_VERSION,
        PeerSet.Validation, MAIN_PROTOCOL_VERSION),
       (PeerSetProtocolNames.get_legacy_name PeerSet.Validation,
        PeerSet.Validation, LEGACY_PROTOCOL_VERSION),
       (PeerSetProtocolNames.generate_name g f PeerSet.Collation MAIN_PROTOCOL_VERSION,
        PeerSet.Collation, MAIN_PROTOCOL_VERSION),
       (PeerSetProtocolNames.get_legacy_name PeerSet.Collation,
        PeerSet.Collation, LEGACY_PROTOCOL_VERSION)] }

theorem generate_name_data (g : List Nat) (f : Option String) (p : PeerSet) (v : Nat) :
    (PeerSetProtocolNames.generate_name g f p v).data =
      '/' :: (hexChars g ++ (forkChars f ++ ('/' :: (labelChars p ++ ('/' :: (natDecimal v).data))))) := by
  cases f <;> cases p <;>
    simp [PeerSetProtocolNames.generate_name, hexEncode, forkChars, labelChars,
      String.data_append, List.append_assoc]

/-- Hex digit characters determine the digit below 16. -/
theorem digitChar_inj : ∀ a, a < 16 → ∀ b, b < 16 → Nat.digitChar a = Nat.digitChar b → a = b := by
  decide

theorem hexChars_nil : hexChars [] = [] := rfl

theorem hexChars_cons (a : Nat) (g : List Nat) :
    hexChars (a :: g) = byteToHex a ++ hexChars g := by
  simp [hexChars]

/-- Hex encoding is injective on byte strings. -/
theorem hexChars_inj : ∀ g1 g2 : List Nat, (∀ x ∈ g1, x < 256) → (∀ x ∈ g2, x < 256) →
    hexChars g1 = hexChars g2 → g1 = g2
  | [], [], _, _, _ => rfl
  | [], _ :: _, _, _, h => by simp [hexChars_nil, hexChars_cons, byteToHex] at h
  | _ :: _, [], _, _, h => by simp [hexChars_nil, hexChars_cons, byteToHex] at h
  | a :: g1, b :: g2, h1, h2, h => by
    rw [hexChars_cons, hexChars_cons] at h
    simp only [byteToHex, List.cons_append, List.nil_append, List.cons.injEq] at h
    obtain ⟨e1, e2, e3⟩ := h
    have ha : a < 256 := h1 a (by simp)
    have hb : b < 256 := h2 b (by simp)
    have d1 : a / 16 = b / 16 := digitChar_inj _ (by omega) _ (by omega) e1
    have d2 : a % 16 = b % 16 := digitChar_inj _ (by omega) _ (by omega) e2
    have hab : a = b := by omega
    have htl : g1 = g2 :=
      hexChars_inj g1 g2 (fun x hx => h1 x (by simp [hx])) (fun x hx => h2 x (by simp [hx])) e3
    rw [hab, htl]

/-- With enough fuel, the fuel-indexed decimal digits are the base-10 digits,
most significant first. -/
theorem decChars_eq : ∀ fuel n : Nat, n ≤ fuel →
    decChars fuel n = ((Nat.digits 10 n).map Nat.digitChar).reverse
  | 0, n, h => by
    have : n = 0 := by omega
    subst this
    simp [decChars]
  | fuel + 1, n, h => by
    by_cases hn : n = 0
    · subst hn; simp [decChars]
    · have hlt : n / 10 < n := Nat.div_lt_self (by omega) (by norm_num)
      rw [decChars]
      rw [if_neg hn]
      rw [decChars_eq fuel (n / 10) (by omega)]
      conv_rhs => rw [Nat.digits_def' (by norm_num : (1 : Nat) < 10) (by omega : 0 < n)]
      simp

/-- Mapping to digit characters is injective on digit lists. -/
theorem map_digitChar_inj : ∀ l1 l2 : List Nat, (∀ d ∈ l1, d < 16) → (∀ d ∈ l2, d < 16) →
    l1.map Nat.digitChar = l2.map Nat.digitChar → l1 = l2
  | [], [], _, _, _ => rfl
  | [], _ :: _, _, _, h => by simp at h
  | _ :: _, [], _, _, h => by simp at h
  | a :: l1, b :: l2, h1, h2, h => by
    simp only [List.map_cons, List.cons.injEq] at h
    have hab : a = b := digitChar_inj a (h1 a (by simp)) b (h2 b (by simp)) h.1
    have htl : l1 = l2 :=
      map_digitChar_inj l1 l2 (fun d hd => h1 d (by simp [hd])) (fun d hd => h2 d (by simp [hd])) h.2
    rw [hab, htl]

/-- Decimal rendering is injective. -/
theorem natDecimal_inj {a b : Nat} (h : natDecimal a = natDecimal b) : a = b := by
  unfold natDecimal at h
  by_cases ha : a = 0 <;> by_cases hb : b = 0
  · omega
  · rw [if_pos ha, if_neg hb] at h
    have hd := congrArg String.data h
    rw [show ("0" : String).data = ['0'] from rfl] at hd
    have hd2 : decChars (b + 1) b = ['0'] := hd.symm
    rw [decChars_eq _ _ (by omega)] at hd2
    have : (Nat.digits 10 b).map Nat.digitChar = ['0'] := by
      have := congrArg List.reverse hd2
      simpa using this
    have hdig : Nat.digits 10 b = [0] := by
      refine map_digitChar_inj _ _ ?_ ?_ ?_
      · intro d hd3
        have := Nat.digits_lt_base (by norm_num) hd3
        omega
      · intro d hd3; simp at hd3; omega
      · simpa using this
    have := congrArg (Nat.ofDigits 10) hdig
    rw [Nat.ofDigits_digits] at this
    simp [Nat.ofDigits] at this
    omega
  · rw [if_neg ha, if_pos hb] at h
    have hd := congrArg String.data h
    rw [show ("0" : String).data = ['0'] from rfl] at hd
    have hd2 : decChars (a + 1) a = ['0'] := hd
    rw [decChars_eq _ _ (by omega)] at hd2
    have : (Nat.digits 10 a).map Nat.digitChar = ['0'] := by
      have := congrArg List.reverse hd2
      simpa using this
    have hdig : Nat.digits 10 a = [0] := by
      refine map_digitChar_inj _ _ ?_ ?_ ?_
      · intro d hd3
        have := Nat.digits_lt_base (by norm_num) hd3
        omega
      · intro d hd3; simp at hd3; omega
      · simpa using this
    have := congrArg (Nat.ofDigits 10) hdig
    rw [Nat.ofDigits_digits] at this
    simp [Nat.ofDigits] at this
    omega
  · rw [if_neg ha, if_neg hb] at h
    have hd := congrArg String.data h
    have hd2 : decChars (a + 1) a = decChars (b + 1) b := hd
    rw [decChars_eq _ _ (by omega), decChars_eq _ _ (by omega)] at hd2
    have hmap := List.reverse_injective hd2
    have hdig : Nat.digits 10 a = Nat.digits 10 b := by
      refine map_digitChar_inj _ _ ?_ ?_ hmap
      · intro d hd3
        have := Nat.digits_lt_base (by norm_num) hd3
        omega
      · intro d hd3
        have := Nat.digits_lt_base (by norm_num) hd3
        omega
    have := congrArg (Nat.ofDigits 10) hdig
    rwa [Nat.ofDigits_digits, Nat.ofDigits_digits] at this

theorem hexChars_length : ∀ g : List Nat, (hexChars g).length = 2 * g.length
  | [] => rfl
  | a :: g => by
    rw [hexChars_cons]
    simp [byteToHex, hexChars_length g]
    omega

theorem natDecimal_data_length_pos (v : Nat) : 1 ≤ (natDecimal v).data.length := by
  unfold natDecimal
  by_cases hv : v = 0
  · rw [if_pos hv]
    decide
  · rw [if_neg hv]
    show 1 ≤ (decChars (v + 1) v).length
    rw [decChars, if_neg hv]
    simp

theorem generate_name_data_length (g : List Nat) (hg : g.length = 32) (f : Option String)
    (p : PeerSet) (v : Nat) : 77 ≤ (PeerSetProtocolNames.generate_name g f p v).data.length := by
  rw [generate_name_data]
  have h1 := hexChars_length g
  have h2 := natDecimal_data_length_pos v
  have h3 : 9 ≤ (labelChars p).length := by cases p <;> decide
  simp only [List.length_cons, List.length_append]
  omega

/-- A generated name is never a legacy name (for 32-byte genesis hashes). -/
theorem generate_name_ne_legacy (g : List Nat) (hg : g.length = 32) (f : Option String)
    (p q : PeerSet) (v : Nat) :
    PeerSetProtocolNames.generate_name g f p v ≠ PeerSetProtocolNames.get_legacy_name q := by
  intro h
  have hl := generate_name_data_length g hg f p v
  rw [h] at hl
  cases q <;> revert hl <;> decide

/-- The two channels never share a generated name. -/
theorem generate_name_ne_peerset (g : List Nat) (f : Option String) (v : Nat) :
    PeerSetProtocolNames.generate_name g f PeerSet.Validation v ≠
      PeerSetProtocolNames.generate_name g f PeerSet.Collation v := by
  intro h
  have hd := congrArg String.data h
  rw [generate_name_data, generate_name_data] at hd
  have hlen := congrArg List.length hd
  simp only [List.length_cons, List.length_append] at hlen
  have : (labelChars PeerSet.Validation).length = 10 := by decide
  have : (labelChars PeerSet.Collation).length = 9 := by decide
  omega

/-- Changing the genesis hash changes the generated name. -/
theorem generate_name_inj_genesis {g1 g2 : List Nat} (f : Option String) (p : PeerSet) (v : Nat)
    (hv1 : ∀ x ∈ g1, x < 256) (hv2 : ∀ x ∈ g2, x < 256)
    (h : PeerSetProtocolNames.generate_name g1 f p v = PeerSetProtocolNames.generate_name g2 f p v) :
    g1 = g2 := by
  have hd := congrArg String.data h
  rw [generate_name_data, generate_name_data] at hd
  simp only [List.cons.injEq, true_and] at hd
  exact hexChars_inj g1 g2 hv1 hv2 (List.append_cancel_right hd)

/-- Changing the fork id changes the generated name. -/
theorem generate_name_inj_fork (g : List Nat) {f1 f2 : Option String} (p : PeerSet) (v : Nat)
    (h : PeerSetProtocolNames.generate_name g f1 p v = PeerSetProtocolNames.generate_name g f2 p v) :
    f1 = f2 := by
  have hd := congrArg String.data h
  rw [generate_name_data, generate_name_data] at hd
  simp only [List.cons.injEq, true_and] at hd
  have h3 := List.append_cancel_right (List.append_cancel_left hd)
  cases f1 with
  | none =>
    cases f2 with
    | none => rfl
    | some s => exact absurd h3 (by simp [forkChars])
  | some s1 =>
    cases f2 with
    | none => exact absurd h3 (by simp [forkChars])
    | some s2 =>
      simp only [forkChars, List.cons.injEq, true_and] at h3
      rw [String.ext h3]

/-- Changing the version changes the generated name. -/
theorem generate_name_inj_version (g : List Nat) (f : Option String) (p : PeerSet) {v1 v2 : Nat}
    (h : PeerSetProtocolNames.generate_name g f p v1 = PeerSetProtocolNames.generate_name g f p v2) :
    v1 = v2 := by
  have hd := congrArg String.data h
  rw [generate_name_data, generate_name_data] at hd
  simp only [List.cons.injEq, true_and] at hd
  have h2 := List.append_cancel_left (List.append_cancel_left hd)
  simp only [List.cons.injEq, true_and] at h2
  have h3 := List.append_cancel_left h2
  simp only [List.cons.injEq, true_and] at h3
  exact natDecimal_inj (String.ext h3)

theorem lookupName_eq_none (name : String) :
    ∀ l : List (String × PeerSet × ProtocolVersion),
      lookupName name l = none ↔ ∀ e ∈ l, e.1 ≠ name
  | [] => by simp [lookupName]
  | (k, v) :: rest => by
    by_cases hk : k = name
    · simp [lookupName, hk]
    · simp [lookupName, hk, lookupName_eq_none name rest]

theorem insert_eq_some (protocols : List (String × PeerSet × ProtocolVersion)) (name : String)
    (p : PeerSet) (v : ProtocolVersion) (l : List (String × PeerSet × ProtocolVersion)) :
    PeerSetProtocolNames.insert_protocol_or_panic protocols name p v = some l ↔
      (lookupName name protocols = none ∧ l = protocols ++ [(name, p, v)]) := by
  cases h : lookupName name protocols <;>
    simp [PeerSetProtocolNames.insert_protocol_or_panic, h, eq_comm]

theorem constructionNames_pairwise (g : List Nat) (hg : g.length = 32) (f : Option String) :
    List.Pairwise (fun a b => a ≠ b) (constructionNames g f) := by
  have h12 := generate_name_ne_legacy g hg f PeerSet.Validation PeerSet.Validation MAIN_PROTOCOL_VERSION
  have h13 := generate_name_ne_peerset g f MAIN_PROTOCOL_VERSION
  have h14 := generate_name_ne_legacy g hg f PeerSet.Validation PeerSet.Collation MAIN_PROTOCOL_VERSION
  have h32 := generate_name_ne_legacy g hg f PeerSet.Collation PeerSet.Validation MAIN_PROTOCOL_VERSION
  have h34 := generate_name_ne_legacy g hg f PeerSet.Collation PeerSet.Collation MAIN_PROTOCOL_VERSION
  have h24 : PeerSetProtocolNames.get_legacy_name PeerSet.Validation ≠
      PeerSetProtocolNames.get_legacy_name PeerSet.Collation := by decide
  simp only [constructionNames, List.pairwise_cons, List.mem_cons, List.mem_singleton,
    List.not_mem_nil, List.Pairwise.nil, and_true]
  refine ⟨?_, ?_, ?_, by simp⟩
  · intro b hb
    rcases hb with rfl | rfl | rfl | h
    · exact h12
    · exact h13
    · exact h14
    · simp at h
  · intro b hb
    rcases hb with rfl | rfl | h
    · exact fun he => h32 he.symm
    · exact h24
    · simp at h
  · intro b hb
    rcases hb with rfl | h
    · exact h34
    · simp at h

theorem new_eq_of_pairwise (g : List Nat) (f : Option String)
    (hp : List.Pairwise (fun a b => a ≠ b) (constructionNames g f)) :
    PeerSetProtocolNames.new g f = some (constructedRegistry g f) := by
  simp only [constructionNames, List.pairwise_cons, List.mem_cons, List.mem_singleton,
    List.not_mem_nil] at hp
  have h12 := hp.1 _ (Or.inl rfl)
  have h13 := hp.1 _ (Or.inr (Or.inl rfl))
  have h14 := hp.1 _ (Or.inr (Or.inr (Or.inl rfl)))
  have h23 := hp.2.1 _ (Or.inl rfl)
  have h24 := hp.2.1 _ (Or.inr (Or.inl rfl))
  have h34 := hp.2.2.1 _ (Or.inl rfl)
  simp [PeerSetProtocolNames.new, PeerSet.iterList, List.foldlM, PeerSetProtocolNames.newStep,
    PeerSetProtocolNames.insert_protocol_or_panic, lookupName, constructedRegistry,
    h12, h13, h14, h23, h24, h34]




theorem new_eq_some_iff (g : List Nat) (f : Option String) (r : PeerSetProtocolNames) :
    PeerSetProtocolNames.new g f = some r ↔
      (List.Pairwise (fun a b => a ≠ b) (constructionNames g f) ∧ r = constructedRegistry g f) := by
  constructor
  · intro h
    simp only [PeerSetProtocolNames.new, PeerSet.iterList, List.foldlM,
      PeerSetProtocolNames.newStep, Option.map_eq_some', Option.bind_eq_some,
      Option.pure_def, Option.some.injEq, bind, insert_eq_some] at h
    obtain ⟨a, ⟨a1, ⟨a2, ⟨hlk1, ha2⟩, hlk2, ha1⟩, afin, ⟨a3, ⟨hlk3, ha3⟩, hlk4, hafin⟩, hfa⟩, hr⟩ := h
    subst ha2 ha1 ha3 hafin hfa
    rw [lookupName_eq_none] at hlk2 hlk3 hlk4
    have k12 := hlk2 _ (by simp : (PeerSetProtocolNames.generate_name g f PeerSet.Validation
      MAIN_PROTOCOL_VERSION, PeerSet.Validation, MAIN_PROTOCOL_VERSION) ∈ _)
    have k13 := hlk3 _ (by simp : (PeerSetProtocolNames.generate_name g f PeerSet.Validation
      MAIN_PROTOCOL_VERSION, PeerSet.Validation, MAIN_PROTOCOL_VERSION) ∈ _)
    have k23 := hlk3 _ (by simp : (PeerSetProtocolNames.get_legacy_name PeerSet.Validation,
      PeerSet.Validation, LEGACY_PROTOCOL_VERSION) ∈ _)
    have k14 := hlk4 _ (by simp : (PeerSetProtocolNames.generate_name g f PeerSet.Validation
      MAIN_PROTOCOL_VERSION, PeerSet.Validation, MAIN_PROTOCOL_VERSION) ∈ _)
    have k24 := hlk4 _ (by simp : (PeerSetProtocolNames.get_legacy_name PeerSet.Validation,
      PeerSet.Validation, LEGACY_PROTOCOL_VERSION) ∈ _)
    have k34 := hlk4 _ (by simp : (PeerSetProtocolNames.generate_name g f PeerSet.Collation
      MAIN_PROTOCOL_VERSION, PeerSet.Collation, MAIN_PROTOCOL_VERSION) ∈ _)
    constructor
    · simp only [constructionNames, List.pairwise_cons, List.mem_cons, List.mem_singleton,
        List.not_mem_nil]
      refine ⟨?_, ?_, ?_, by simp⟩
      · intro b hb
        rcases hb with rfl | rfl | rfl | hb
        · exact k12
        · exact k13
        · exact k14
        · simp at hb
      · intro b hb
        rcases hb with rfl | rfl | hb
        · exact k23
        · exact k24
        · simp at hb
      · intro b hb
        rcases hb with rfl | hb
        · exact k34
        · simp at hb
    · rw [← hr]
      simp [constructedRegistry]
  · rintro ⟨hp, rfl⟩
    exact new_eq_of_pairwise g f hp

/-- C1: the generated main wire name is the slash-joined concatenation of the
lowercase-hex genesis hash, the optional fork id, the channel label, and the
decimal version; checked on the two concrete test vectors. -/
theorem generate_name_spec :
    (∀ (g : List Nat) (f : Option String) (p : PeerSet) (v : Nat), g.length = 32 →
      PeerSetProtocolNames.generate_name g f p v =
        "/" ++ hexEncode g ++
          (match f with
           | some fid => "/" ++ fid
           | none => "") ++ "/" ++ p.get_label ++ "/" ++ natDecimal v) ∧
    PeerSetProtocolNames.generate_name genesisTestHash none PeerSet.Validation 3 =
      "/7ac8741de8b7146d8a5617fd462914557fe63c265a7f1c10e7dae32858eebb80/validation/3" ∧
    PeerSetProtocolNames.generate_name genesisTestHash (some "test-fork") PeerSet.Collation 11 =
      "/7ac8741de8b7146d8a5617fd462914557fe63c265a7f1c10e7dae32858eebb80/test-fork/collation/11" := by
  refine ⟨?_, by decide, by decide⟩
  intro g f p v _
  apply String.ext
  cases f <;> cases p <;>
    simp [PeerSetProtocolNames.generate_name, PeerSet.get_label, String.data_append,
      List.append_assoc]

theorem generate_name_spec_witness :
    genesisTestHash.length = 32 ∧
    PeerSetProtocolNames.generate_name genesisTestHash none PeerSet.Validation 3 =
      "/" ++ hexEncode genesisTestHash ++ "" ++ "/" ++ PeerSet.get_label PeerSet.Validation ++
        "/" ++ natDecimal 3 :=
  ⟨by decide, generate_name_spec.1 genesisTestHash none PeerSet.Validation 3 (by decide)⟩

/-- C2: on a constructed registry, the main name of a channel is exactly the
stored entry for that channel at the main version, and reverse lookup
round-trips both the main and the legacy name. -/
theorem registry_main_name_consistency (g : List Nat) (f : Option String)
    (r : PeerSetProtocolNames) (p : PeerSet) (hg : g.length = 32)
    (hr : PeerSetProtocolNames.new g f = some r) :
    (r.get_main_name p, p, p.get_main_version) ∈ r.protocols ∧
    r.try_get_protocol (r.get_main_name p) = some (p, p.get_main_version) ∧
    r.try_get_protocol (PeerSetProtocolNames.get_legacy_name p) = some (p, 1) := by
  obtain ⟨_, rfl⟩ := (new_eq_some_iff g f r).mp hr
  have h12 := generate_name_ne_legacy g hg f PeerSet.Validation PeerSet.Validation MAIN_PROTOCOL_VERSION
  have h13 := generate_name_ne_peerset g f MAIN_PROTOCOL_VERSION
  have h14 := generate_name_ne_legacy g hg f PeerSet.Validation PeerSet.Collation MAIN_PROTOCOL_VERSION
  have h32 := generate_name_ne_legacy g hg f PeerSet.Collation PeerSet.Validation MAIN_PROTOCOL_VERSION
  have h34 := generate_name_ne_legacy g hg f PeerSet.Collation PeerSet.Collation MAIN_PROTOCOL_VERSION
  have h24 : PeerSetProtocolNames.get_legacy_name PeerSet.Validation ≠
      PeerSetProtocolNames.get_legacy_name PeerSet.Collation := by decide
  cases p <;>
    refine ⟨?_, ?_, ?_⟩ <;>
      simp [PeerSetProtocolNames.try_get_protocol, PeerSetProtocolNames.get_main_name,
        PeerSetProtocolNames.get_name, PeerSet.get_main_version, constructedRegistry,
        lookupName, LEGACY_PROTOCOL_VERSION, h12, h13, h14, h32, h24, h34, Ne.symm h32]

theorem registry_main_name_consistency_witness :
    genesisTestHash.length = 32 ∧
    PeerSetProtocolNames.new genesisTestHash none = some (constructedRegistry genesisTestHash none) ∧
    (((constructedRegistry genesisTestHash none).get_main_name PeerSet.Validation,
        PeerSet.Validation, PeerSet.get_main_version PeerSet.Validation) ∈
        (constructedRegistry genesisTestHash none).protocols ∧
     (constructedRegistry genesisTestHash none).try_get_protocol
        ((constructedRegistry genesisTestHash none).get_main_name PeerSet.Validation) =
        some (PeerSet.Validation, PeerSet.get_main_version PeerSet.Validation) ∧
     (constructedRegistry genesisTestHash none).try_get_protocol
        (PeerSetProtocolNames.get_legacy_name PeerSet.Validation) =
        some (PeerSet.Validation, 1)) :=
  ⟨by decide, by decide,
   registry_main_name_consistency genesisTestHash none (constructedRegistry genesisTestHash none)
     PeerSet.Validation (by decide) (by decide)⟩

/-- C3: admission slot policy: Validation gets floor(min_gossip_peers / 2) - 1
inbound and outbound slots and Accept for every role; Collation gets 100/0/Accept
for authorities and 0/0/Deny otherwise; reserved peers are always empty. -/
theorem get_info_slot_policy (M : Nat) (r : PeerSetProtocolNames)
    (h2 : 2 ≤ M) (hM : M < 2 ^ 32) :
    (∀ role : IsAuthority,
      (PeerSet.get_info M PeerSet.Validation role r).set_config.in_peers = M / 2 - 1 ∧
      (PeerSet.get_info M PeerSet.Validation role r).set_config.out_peers = M / 2 - 1 ∧
      (PeerSet.get_info M PeerSet.Validation role r).set_config.non_reserved_mode =
        NonReservedPeerMode.Accept) ∧
    (PeerSet.get_info M PeerSet.Collation IsAuthority.Yes r).set_config.in_peers = 100 ∧
    (PeerSet.get_info M PeerSet.Collation IsAuthority.Yes r).set_config.out_peers = 0 ∧
    (PeerSet.get_info M PeerSet.Collation IsAuthority.Yes r).set_config.non_reserved_mode =
      NonReservedPeerMode.Accept ∧
    (PeerSet.get_info M PeerSet.Collation IsAuthority.No r).set_config.in_peers = 0 ∧
    (PeerSet.get_info M PeerSet.Collation IsAuthority.No r).set_config.out_peers = 0 ∧
    (PeerSet.get_info M PeerSet.Collation IsAuthority.No r).set_config.non_reserved_mode =
      NonReservedPeerMode.Deny ∧
    (∀ (p : PeerSet) (role : IsAuthority),
      (PeerSet.get_info M p role r).set_config.reserved_nodes = []) := by
  have hM' : M < 4294967296 := by
    have h232 : (2 : Nat) ^ 32 = 4294967296 := by norm_num
    rw [h232] at hM
    exact hM
  have key : (M % 4294967296 / 2 + 4294967295) % 4294967296 = M / 2 - 1 := by
    omega
  refine ⟨fun role => ⟨?_, ?_, ?_⟩, ?_, ?_, ?_, ?_, ?_, ?_, fun p role => ?_⟩
  · simp [PeerSet.get_info, key]
  · simp [PeerSet.get_info, key]
  · simp [PeerSet.get_info]
  · simp [PeerSet.get_info]
  · simp [PeerSet.get_info]
  · simp [PeerSet.get_info]
  · simp [PeerSet.get_info]
  · simp [PeerSet.get_info]
  · simp [PeerSet.get_info]
  · cases p <;> simp [PeerSet.get_info]

theorem get_info_slot_policy_witness :
    2 ≤ 25 ∧ 25 < 2 ^ 32 ∧
    (PeerSet.get_info 25 PeerSet.Validation IsAuthority.No
      (constructedRegistry genesisTestHash none)).set_config.in_peers = 25 / 2 - 1 :=
  ⟨by norm_num, by norm_num,
   ((get_info_slot_policy 25 (constructedRegistry genesisTestHash none)
      (by norm_num) (by norm_num)).1 IsAuthority.No).1⟩

/-- C4: construction fails exactly when one of the inserted wire names collides
with a key already present, and a successful construction has pairwise distinct
keys, so no two registrations share a wire name. -/
theorem registry_collision_detection (g : List Nat) (f : Option String) :
    (PeerSetProtocolNames.new g f = none ↔
      ¬ List.Pairwise (fun a b => a ≠ b) (constructionNames g f)) ∧
    (∀ r, PeerSetProtocolNames.new g f = some r →
      List.Pairwise (fun a b => a ≠ b) (r.protocols.map Prod.fst)) := by
  constructor
  · constructor
    · intro hnone hp
      rw [new_eq_of_pairwise g f hp] at hnone
      exact Option.noConfusion hnone
    · intro hnp
      cases hn : PeerSetProtocolNames.new g f with
      | none => rfl
      | some r => exact absurd ((new_eq_some_iff g f r).mp hn).1 hnp
  · intro r hr
    obtain ⟨hp, rfl⟩ := (new_eq_some_iff g f r).mp hr
    exact hp

theorem registry_collision_detection_witness :
    PeerSetProtocolNames.new genesisTestHash none =
      some (constructedRegistry genesisTestHash none) ∧
    List.Pairwise (fun a b => a ≠ b)
      ((constructedRegistry genesisTestHash none).protocols.map Prod.fst) :=
  ⟨by decide,
   (registry_collision_detection genesisTestHash none).2
     (constructedRegistry genesisTestHash none) (by decide)⟩

/-- C5: a registry built with no fork id has exactly 4 entries (main and legacy
for each of the 2 channels) with pairwise distinct keys. -/
theorem registry_four_entries (g : List Nat) (_hg : g.length = 32)
    (r : PeerSetProtocolNames) (hr : PeerSetProtocolNames.new g none = some r) :
    r.protocols.length = 4 ∧
    List.Pairwise (fun a b => a ≠ b) (r.protocols.map Prod.fst) := by
  obtain ⟨hp, rfl⟩ := (new_eq_some_iff g none r).mp hr
  exact ⟨rfl, hp⟩

theorem registry_four_entries_witness :
    genesisTestHash.length = 32 ∧
    PeerSetProtocolNames.new genesisTestHash none =
      some (constructedRegistry genesisTestHash none) ∧
    ((constructedRegistry genesisTestHash none).protocols.length = 4 ∧
     List.Pairwise (fun a b => a ≠ b)
       ((constructedRegistry genesisTestHash none).protocols.map Prod.fst)) :=
  ⟨by decide, by decide,
   registry_four_entries genesisTestHash (by decide)
     (constructedRegistry genesisTestHash none) (by decide)⟩

/-- C6: the generated name is injective in each argument separately (genesis
hash, fork id, channel, version), and the legacy names are the two fixed
constants, independent of genesis hash and fork id. -/
theorem generate_name_injectivity :
    (∀ (g1 g2 : List Nat) (f : Option String) (p : PeerSet) (v : Nat),
        (∀ x ∈ g1, x < 256) → (∀ x ∈ g2, x < 256) → g1 ≠ g2 →
        PeerSetProtocolNames.generate_name g1 f p v ≠
          PeerSetProtocolNames.generate_name g2 f p v) ∧
    (∀ (g : List Nat) (f1 f2 : Option String) (p : PeerSet) (v : Nat), f1 ≠ f2 →
        PeerSetProtocolNames.generate_name g f1 p v ≠
          PeerSetProtocolNames.generate_name g f2 p v) ∧
    (∀ (g : List Nat) (f : Option String) (p1 p2 : PeerSet) (v : Nat), p1 ≠ p2 →
        PeerSetProtocolNames.generate_name g f p1 v ≠
          PeerSetProtocolNames.generate_name g f p2 v) ∧
    (∀ (g : List Nat) (f : Option String) (p : PeerSet) (v1 v2 : Nat), v1 ≠ v2 →
        PeerSetProtocolNames.generate_name g f p v1 ≠
          PeerSetProtocolNames.generate_name g f p v2) ∧
    (PeerSetProtocolNames.get_legacy_name PeerSet.Validation = "/polkadot/validation/1" ∧
     PeerSetProtocolNames.get_legacy_name PeerSet.Collation = "/polkadot/collation/1") := by
  refine ⟨?_, ?_, ?_, ?_, rfl, rfl⟩
  · intro g1 g2 f p v hv1 hv2 hne h
    exact hne (generate_name_inj_genesis f p v hv1 hv2 h)
  · intro g f1 f2 p v hne h
    exact hne (generate_name_inj_fork g p v h)
  · intro g f p1 p2 v hne h
    cases p1 <;> cases p2
    · exact hne rfl
    · exact generate_name_ne_peerset g f v h
    · exact generate_name_ne_peerset g f v h.symm
    · exact hne rfl
  · intro g f p v1 v2 hne h
    exact hne (generate_name_inj_version g f p h)

theorem generate_name_injectivity_witness :
    PeerSetProtocolNames.generate_name [0] none PeerSet.Validation 1 ≠
      PeerSetProtocolNames.generate_name [1] none PeerSet.Validation 1 ∧
    PeerSetProtocolNames.generate_name [] none PeerSet.Validation 1 ≠
      PeerSetProtocolNames.generate_name [] (some "x") PeerSet.Validation 1 ∧
    PeerSetProtocolNames.generate_name [] none PeerSet.Validation 1 ≠
      PeerSetProtocolNames.generate_name [] none PeerSet.Collation 1 ∧
    PeerSetProtocolNames.generate_name [] none PeerSet.Validation 1 ≠
      PeerSetProtocolNames.generate_name [] none PeerSet.Validation 2 :=
  ⟨generate_name_injectivity.1 [0] [1] none PeerSet.Validation 1
      (by decide) (by decide) (by decide),
   generate_name_injectivity.2.1 [] none (some "x") PeerSet.Validation 1 (by decide),
   generate_name_injectivity.2.2.1 [] none PeerSet.Validation PeerSet.Collation 1 (by decide),
   generate_name_injectivity.2.2.2.1 [] none PeerSet.Validation 1 2 (by decide)⟩

/-- C7: for every 32-byte genesis hash and optional fork id, the four names
inserted during construction are pairwise distinct, so the collision branch is
unreachable and construction succeeds. -/
theorem registry_construction_always_succeeds (g : List Nat) (f : Option String)
    (hg : g.length = 32) :
    List.Pairwise (fun a b => a ≠ b) (constructionNames g f) ∧
    PeerSetProtocolNames.new g f = some (constructedRegistry g f) := by
  have hp := constructionNames_pairwise g hg f
  exact ⟨hp, new_eq_of_pairwise g f hp⟩

theorem registry_construction_always_succeeds_witness :
    genesisTestHash.length = 32 ∧
    (List.Pairwise (fun a b => a ≠ b) (constructionNames genesisTestHash (some "test-fork")) ∧
     PeerSetProtocolNames.new genesisTestHash (some "test-fork") =
       some (constructedRegistry genesisTestHash (some "test-fork"))) :=
  ⟨by decide,
   registry_construction_always_succeeds genesisTestHash (some "test-fork") (by decide)⟩

/-- C8: the max notification size is the constant 100 KiB (102400 bytes),
independent of both the channel and the role. -/
theorem max_notification_size_constant :
    ∀ (p q : PeerSet) (a b : IsAuthority),
      PeerSet.get_max_notification_size p a = 102400 ∧
      PeerSet.get_max_notification_size p a = MAX_NOTIFICATION_SIZE ∧
      PeerSet.get_max_notification_size p a = PeerSet.get_max_notification_size q b :=
  fun _ _ _ _ => ⟨rfl, rfl, rfl⟩

/-- C9: the protocol label is defined exactly for (Validation, 1) and
(Collation, 1), and is absent for every other channel-version pair. -/
theorem protocol_label_enumeration :
    PeerSet.get_protocol_label PeerSet.Validation 1 = some "validation/1" ∧
    PeerSet.get_protocol_label PeerSet.Collation 1 = some "collation/1" ∧
    ∀ (p : PeerSet) (v : ProtocolVersion),
      ¬(p = PeerSet.Validation ∧ v = 1) → ¬(p = PeerSet.Collation ∧ v = 1) →
      PeerSet.get_protocol_label p v = none := by
  refine ⟨rfl, rfl, ?_⟩
  intro p v h1 h2
  match p, v with
  | PeerSet.Validation, 0 => rfl
  | PeerSet.Validation, 1 => exact absurd ⟨rfl, rfl⟩ h1
  | PeerSet.Validation, n + 2 => rfl
  | PeerSet.Collation, 0 => rfl
  | PeerSet.Collation, 1 => exact absurd ⟨rfl, rfl⟩ h2
  | PeerSet.Collation, n + 2 => rfl

theorem protocol_label_enumeration_witness :
    PeerSet.get_protocol_label PeerSet.Collation 7 = none :=
  protocol_label_enumeration.2.2 PeerSet.Collation 7 (by decide) (by decide)

/-- C10: writing one channel's slot in the per-peer-set container returns the
written value on reads of that channel and leaves the other channel unchanged. -/
theorem per_peer_set_frame :
    ∀ (T : Type) (x : PerPeerSet T) (c c' : PeerSet) (v : T),
      (x.index_mut c v).index c = v ∧
      (c' ≠ c → (x.index_mut c v).index c' = x.index c') := by
  intro T x c c' v
  cases c <;> cases c' <;>
    simp [PerPeerSet.index, PerPeerSet.index_mut]

theorem per_peer_set_frame_witness :
    (PerPeerSet.index_mut (⟨1, 2⟩ : PerPeerSet Nat) PeerSet.Validation 7).index
        PeerSet.Collation = 2 ∧
    (PerPeerSet.index_mut (⟨1, 2⟩ : PerPeerSet Nat) PeerSet.Validation 7).index
        PeerSet.Validation = 7 :=
  ⟨(per_peer_set_frame Nat ⟨1, 2⟩ PeerSet.Validation PeerSet.Collation 7).2 (by decide),
   (per_peer_set_frame Nat ⟨1, 2⟩ PeerSet.Validation PeerSet.Collation 7).1⟩
